import Mathlib

/-!
Verification of the motion-tracking single-page tool (`src/app/page.tsx`).

The parsing and metrics pipeline of the page operates on JavaScript numbers.
We embed JavaScript numbers as an inductive type `JS α` over an ordered field
`α`: a finite value `num x`, the two infinities, and `NaN`.  Arithmetic on
finite values is exact field arithmetic (the idealization used throughout this
development: no binary64 rounding, no overflow to infinity, and no negative
zero), while the special values follow the IEEE-754 rules JavaScript uses:
`NaN` propagates through every operation, comparisons involving `NaN` are
false, `Math.max` returns `NaN` if any argument is `NaN`, `∞ - ∞ = NaN`,
`∞ * 0 = NaN`, `x / 0 = ±∞` for `x ≠ 0`, `0 / 0 = NaN`, and so on.

All definitions are polymorphic in the field `α` so that string parsing can be
computed exactly over `ℚ` while the metric computations of the page are stated
over `ℝ` (with `Real.sqrt` for `Math.sqrt`).
-/

namespace Motion

/-- A JavaScript number: a finite field element, an infinity, or `NaN`. -/
inductive JS (α : Type) where
  | num (x : α)
  | posInf
  | negInf
  | nan
deriving DecidableEq

namespace JS

variable {α : Type} [LinearOrderedField α] {β : Type}

/-- `Number.isNaN`. -/
def isNaN : JS α → Bool
  | nan => true
  | _ => false

/-- `Number.isFinite`. -/
def isFinite : JS α → Bool
  | num _ => true
  | _ => false

/-- JavaScript unary minus. -/
def neg : JS α → JS α
  | num x => num (-x)
  | posInf => negInf
  | negInf => posInf
  | nan => nan

/-- JavaScript `+` on numbers. -/
def add : JS α → JS α → JS α
  | num a, num b => num (a + b)
  | num _, posInf => posInf
  | num _, negInf => negInf
  | num _, nan => nan
  | posInf, num _ => posInf
  | posInf, posInf => posInf
  | posInf, negInf => nan
  | posInf, nan => nan
  | negInf, num _ => negInf
  | negInf, posInf => nan
  | negInf, negInf => negInf
  | negInf, nan => nan
  | nan, _ => nan

/-- JavaScript binary `-` on numbers, that is, `a + (-b)`. -/
def sub (a b : JS α) : JS α := a.add b.neg

/-- JavaScript `*` on numbers. -/
def mul : JS α → JS α → JS α
  | num a, num b => num (a * b)
  | num a, posInf => if a = 0 then nan else if 0 < a then posInf else negInf
  | num a, negInf => if a = 0 then nan else if 0 < a then negInf else posInf
  | num _, nan => nan
  | posInf, num b => if b = 0 then nan else if 0 < b then posInf else negInf
  | posInf, posInf => posInf
  | posInf, negInf => negInf
  | posInf, nan => nan
  | negInf, num b => if b = 0 then nan else if 0 < b then negInf else posInf
  | negInf, posInf => negInf
  | negInf, negInf => posInf
  | negInf, nan => nan
  | nan, _ => nan

/-- JavaScript `/` on numbers (division by the unsigned zero of the
idealization yields the infinity of the dividend's sign). -/
def div : JS α → JS α → JS α
  | num a, num b =>
    if b = 0 then (if a = 0 then nan else if 0 < a then posInf else negInf)
    else num (a / b)
  | num _, posInf => num 0
  | num _, negInf => num 0
  | num _, nan => nan
  | posInf, num b => if 0 ≤ b then posInf else negInf
  | posInf, posInf => nan
  | posInf, negInf => nan
  | posInf, nan => nan
  | negInf, num b => if 0 ≤ b then negInf else posInf
  | negInf, posInf => nan
  | negInf, negInf => nan
  | negInf, nan => nan
  | nan, _ => nan

/-- `Math.max` of two values (`NaN` if either argument is `NaN`). -/
def jmax : JS α → JS α → JS α
  | nan, _ => nan
  | num _, nan => nan
  | posInf, nan => nan
  | negInf, nan => nan
  | posInf, _ => posInf
  | num _, posInf => posInf
  | negInf, posInf => posInf
  | negInf, b => b
  | num a, negInf => num a
  | num a, num b => num (max a b)

/-- JavaScript `<=` (false whenever `NaN` is involved). -/
def le : JS α → JS α → Bool
  | num a, num b => a ≤ b
  | num _, posInf => true
  | num _, negInf => false
  | posInf, posInf => true
  | posInf, num _ => false
  | posInf, negInf => false
  | negInf, _ => true
  | nan, _ => false
  | _, nan => false

/-- JavaScript `<` (false whenever `NaN` is involved); `a > b` is `lt b a`. -/
def lt : JS α → JS α → Bool
  | num a, num b => a < b
  | num _, posInf => true
  | num _, negInf => false
  | num _, nan => false
  | posInf, _ => false
  | negInf, negInf => false
  | negInf, nan => false
  | negInf, _ => true
  | nan, _ => false

/-- `Math.sqrt`, parameterized by the square-root function of `α`
(instantiated with `Real.sqrt` at `α := ℝ`). -/
def sqrtJS (s : α → α) : JS α → JS α
  | num x => if x < 0 then nan else num (s x)
  | posInf => posInf
  | negInf => nan
  | nan => nan

/-- Map the finite payload (used to cast parsed rationals into `ℝ`). -/
def map (f : α → β) : JS α → JS β
  | num x => num (f x)
  | posInf => posInf
  | negInf => negInf
  | nan => nan

/-- The finite payload of a value, defaulting to `0` (used only to state
spec-level properties about finite values). -/
def valD : JS α → α
  | num x => x
  | _ => 0

end JS

/-! ### String utilities

Models of the string operations the parser uses: `text.split(/\r?\n/)`,
`String.prototype.trim`, and `line.split(/\s+/)`.  JavaScript whitespace
(`\s` and `trim`) covers the ASCII whitespace characters together with a few
Unicode space characters; we include the ones relevant here.
-/

/-- Whether a character is JavaScript whitespace (for `trim` and `\s`). -/
def isJsWhitespace (c : Char) : Bool :=
  c = ' ' || c = '\t' || c = '\n' || c = '\r' ||
    c.val = 11 || c.val = 12 || c.val = 0xa0 ||
    c.val = 0x2028 || c.val = 0x2029 || c.val = 0xfeff

/-- Worker for `splitLines`: split at each `\n`, also consuming a `\r`
immediately before it (the `/\r?\n/` separator). -/
def splitLinesAux : List Char → List Char → List String
  | [], acc => [String.mk acc.reverse]
  | '\r' :: '\n' :: rest, acc => String.mk acc.reverse :: splitLinesAux rest []
  | '\n' :: rest, acc => String.mk acc.reverse :: splitLinesAux rest []
  | c :: rest, acc => splitLinesAux rest (c :: acc)

/-- `text.split(/\r?\n/)`. -/
def splitLines (text : String) : List String :=
  splitLinesAux text.data []

/-- `String.prototype.trim`: drop leading and trailing whitespace. -/
def jsTrim (s : String) : String :=
  String.mk (((s.data.dropWhile (fun c => isJsWhitespace c)).reverse.dropWhile
    (fun c => isJsWhitespace c)).reverse)

/-- Worker for `splitWs`.  `inWs` records whether the previous character was
part of a whitespace run (so that a run produces a single separator). -/
def splitWsAux : List Char → List Char → Bool → List String
  | [], acc, _ => [String.mk acc.reverse]
  | c :: rest, acc, inWs =>
    if isJsWhitespace c then
      if inWs then splitWsAux rest acc true
      else String.mk acc.reverse :: splitWsAux rest [] true
    else splitWsAux rest (c :: acc) false

/-- `line.split(/\s+/)`: split on maximal runs of whitespace. -/
def splitWs (s : String) : List String :=
  splitWsAux s.data [] false

/-! ### `Number(string)`

A model of the ECMAScript `ToNumber` conversion applied to a string
(`StringNumericLiteral`): after trimming whitespace, the empty string is `0`;
an optional sign may precede `Infinity` or a decimal literal (integer part,
optional fraction, optional exponent); hexadecimal, octal and binary literals
are accepted without a sign; everything else is `NaN`.  Finite results are
exact rationals (the idealization ignores binary64 rounding and overflow). -/

/-- Read a maximal run of decimal digits; returns the accumulated value, the
number of digits read, and the remaining characters. -/
def decDigitsAux : List Char → ℕ → ℕ → ℕ × ℕ × List Char
  | [], v, n => (v, n, [])
  | c :: rest, v, n =>
    if c.isDigit then decDigitsAux rest (v * 10 + (c.toNat - 48)) (n + 1)
    else (v, n, c :: rest)

/-- Parse the optional exponent part (`e`/`E`, optional sign, digits); the
whole rest of the string must be consumed.  `none` means no match. -/
def parseExponent : List Char → Option ℤ
  | [] => some 0
  | c :: rest =>
    if c = 'e' ∨ c = 'E' then
      let sr : ℤ × List Char :=
        match rest with
        | '+' :: r => (1, r)
        | '-' :: r => (-1, r)
        | r => (1, r)
      let (v, n, r3) := decDigitsAux sr.2 0 0
      if n = 0 ∨ ¬ r3.isEmpty then none else some (sr.1 * v)
    else none

/-- Parse an unsigned decimal literal (`StrUnsignedDecimalLiteral` without
`Infinity`), consuming the whole string. -/
def parseUnsignedDec (cs : List Char) : Option ℚ :=
  let (ip, ipn, r1) := decDigitsAux cs 0 0
  match r1 with
  | '.' :: rest =>
    let (fp, fpn, r2) := decDigitsAux rest 0 0
    if ipn = 0 ∧ fpn = 0 then none
    else
      match parseExponent r2 with
      | some e => some (((ip : ℚ) + (fp : ℚ) / 10 ^ fpn) * (10 : ℚ) ^ e)
      | none => none
  | _ =>
    if ipn = 0 then none
    else
      match parseExponent r1 with
      | some e => some ((ip : ℚ) * (10 : ℚ) ^ e)
      | none => none

/-- The numeric value of a digit in bases up to 16, if valid. -/
def radixVal (c : Char) : Option ℕ :=
  if c.isDigit then some (c.toNat - 48)
  else if 'a' ≤ c ∧ c ≤ 'f' then some (c.toNat - 87)
  else if 'A' ≤ c ∧ c ≤ 'F' then some (c.toNat - 55)
  else none

/-- Parse a nonempty run of digits of the given base, consuming everything. -/
def parseRadixAux (base : ℕ) : List Char → ℕ → ℕ → Option ℕ
  | [], v, n => if n = 0 then none else some v
  | c :: rest, v, n =>
    match radixVal c with
    | some d => if d < base then parseRadixAux base rest (v * base + d) (n + 1) else none
    | none => none

/-- Parse a signless decimal or `Infinity` tail. -/
def toNumberSigned (cs : List Char) : JS ℚ :=
  let sr : ℚ × List Char :=
    match cs with
    | '+' :: r => (1, r)
    | '-' :: r => (-1, r)
    | r => (1, r)
  if sr.2 = ['I', 'n', 'f', 'i', 'n', 'i', 't', 'y'] then
    if sr.1 = 1 then JS.posInf else JS.negInf
  else
    match parseUnsignedDec sr.2 with
    | some q => JS.num (sr.1 * q)
    | none => JS.nan

/-- `Number(s)` for a string `s`. -/
def toNumber (s : String) : JS ℚ :=
  match (jsTrim s).data with
  | [] => JS.num 0
  | '0' :: c :: rest =>
    if c = 'x' ∨ c = 'X' then
      match parseRadixAux 16 rest 0 0 with
      | some v => JS.num v
      | none => JS.nan
    else if c = 'o' ∨ c = 'O' then
      match parseRadixAux 8 rest 0 0 with
      | some v => JS.num v
      | none => JS.nan
    else if c = 'b' ∨ c = 'B' then
      match parseRadixAux 2 rest 0 0 with
      | some v => JS.num v
      | none => JS.nan
    else toNumberSigned ('0' :: c :: rest)
  | cs => toNumberSigned cs

/-! ### The parsing and metrics pipeline (`parseFile` in `page.tsx`) -/

/-- A parsed sample (`ParsedPoint` in the source): frame index and three
coordinates, each a JavaScript number. -/
structure ParsedPoint (α : Type) where
  frame : JS α
  x : JS α
  y : JS α
  z : JS α
deriving DecidableEq

/-- The per-file metrics record (`FileMetrics` in the source). -/
structure FileMetrics (α : Type) where
  fileName : String
  points : ℕ
  skipped : ℕ
  durationSec : JS α
  averageSpeed : JS α
  maxSpeed : JS α
  maxDisplacement : JS α
  totalPath : JS α
deriving DecidableEq

variable {α : Type} [LinearOrderedField α] {β : Type}

/-- The `distance` helper: Euclidean distance
`Math.sqrt(dx*dx + dy*dy + dz*dz)` on JavaScript numbers, parameterized by the
square-root function of the field. -/
def distance (s : α → α) (a b : ParsedPoint α) : JS α :=
  let dx := b.x.sub a.x
  let dy := b.y.sub a.y
  let dz := b.z.sub a.z
  JS.sqrtJS s (((dx.mul dx).add (dy.mul dy)).add (dz.mul dz))

/-- The outcome of one iteration of the line loop of `parseFile`: an empty
line is ignored, a malformed line counts as skipped, a well-formed line
yields a point. -/
inductive LineResult (α : Type) where
  | empty
  | skip
  | point (p : ParsedPoint α)
deriving DecidableEq

/-- Whether the line was counted as skipped. -/
def LineResult.isSkip : LineResult α → Bool
  | skip => true
  | _ => false

/-- The point produced by the line, if any. -/
def LineResult.point? : LineResult α → Option (ParsedPoint α)
  | point p => some p
  | _ => none

/-- The body of the line loop of `parseFile` (lines 56-73 of `page.tsx`):
trim; ignore empty lines; split on whitespace; reject fewer than 4 tokens;
coerce the first four tokens with `Number` and reject if any is `NaN`. -/
def classifyLine (raw : String) : LineResult ℚ :=
  let line := jsTrim raw
  if line = "" then .empty
  else
    match splitWs line with
    | t0 :: t1 :: t2 :: t3 :: _ =>
      let frame := toNumber t0
      let x := toNumber t1
      let y := toNumber t2
      let z := toNumber t3
      if frame.isNaN || x.isNaN || y.isNaN || z.isNaN then .skip
      else .point ⟨frame, x, y, z⟩
    | _ => .skip

/-- The token-parsing stage of `parseFile` (lines 52-73): split the text into
lines and fold the line loop, accumulating the valid points in order together
with the skip counter. -/
def parsePoints (text : String) : List (ParsedPoint ℚ) × ℕ :=
  (splitLines text).foldl
    (fun acc raw =>
      match classifyLine raw with
      | .empty => acc
      | .skip => (acc.1, acc.2 + 1)
      | .point p => (acc.1 ++ [p], acc.2))
    ([], 0)

/-- One iteration of the segment loop of `parseFile` (lines 95-109): the
accumulator is `(totalPath, maxSpeed, skipped)`, the element is the pair
`(prev, current)`. -/
def segStep (s : α → α) (fps : JS α) (acc : JS α × JS α × ℕ)
    (pr : ParsedPoint α × ParsedPoint α) : JS α × JS α × ℕ :=
  let deltaFrames := pr.2.frame.sub pr.1.frame
  if deltaFrames.le (JS.num 0) then (acc.1, acc.2.1, acc.2.2 + 1)
  else
    let segmentDistance := distance s pr.1 pr.2
    let segmentTime := deltaFrames.div fps
    let speed := segmentDistance.div segmentTime
    (acc.1.add segmentDistance, JS.jmax acc.2.1 speed, acc.2.2)

/-- The metrics stage of `parseFile` (lines 75-127): given the parsed points
and the skip counter of the token stage, either return the zero record (fewer
than 2 points) or compute duration, total path, maximum speed, maximum
displacement and average speed. -/
def parseFileMetrics (s : α → α) (fileName : String) (pts : List (ParsedPoint α))
    (skipped0 : ℕ) (fps : JS α) : FileMetrics α :=
  match pts with
  | [] => ⟨fileName, 0, skipped0, JS.num 0, JS.num 0, JS.num 0, JS.num 0, JS.num 0⟩
  | [_] => ⟨fileName, 1, skipped0, JS.num 0, JS.num 0, JS.num 0, JS.num 0, JS.num 0⟩
  | p0 :: p1 :: rest =>
    let points := p0 :: p1 :: rest
    let first := p0
    let last := points.getLast (by simp)
    let durationSec := JS.jmax (JS.num 0) ((last.frame.sub first.frame).div fps)
    let acc := (points.zip (p1 :: rest)).foldl (segStep s fps) (JS.num 0, JS.num 0, skipped0)
    let totalPath := acc.1
    let maxSpeed := acc.2.1
    let skipped := acc.2.2
    let maxDisplacement :=
      points.foldl (fun md p => JS.jmax md (distance s first p)) (JS.num 0)
    let averageSpeed :=
      if JS.lt (JS.num 0) durationSec then totalPath.div durationSec else JS.num 0
    ⟨fileName, points.length, skipped, durationSec, averageSpeed, maxSpeed,
      maxDisplacement, totalPath⟩

/-- Cast a parsed point into another field (used to move the exact rationals
of the token stage into `ℝ`, where `Math.sqrt` is `Real.sqrt`). -/
def castPoint (f : ℚ → α) (p : ParsedPoint ℚ) : ParsedPoint α :=
  ⟨p.frame.map f, p.x.map f, p.y.map f, p.z.map f⟩

/-- The whole of `parseFile`: token stage followed by the metrics stage.  A
file is its name together with its text content. -/
def parseFile (s : α → α) (toF : ℚ → α) (fileName text : String) (fps : JS α) :
    FileMetrics α :=
  let pr := parsePoints text
  parseFileMetrics s fileName (pr.1.map (castPoint toF)) pr.2 fps

/-! ### Grouping and ordering state (`page.tsx` lines 23-41, 130-146, 276-322) -/

/-- A group (`Group` in the source). -/
structure Group where
  id : String
  name : String
deriving DecidableEq

/-- `DEFAULT_FPS = 29.999`. -/
def DEFAULT_FPS : ℚ := 29.999

/-- `DEFAULT_GROUPS`. -/
def DEFAULT_GROUPS : List Group :=
  [⟨"select-group", "Select Group"⟩, ⟨"control", "Control"⟩, ⟨"hinge", "Hinge"⟩,
    ⟨"modular", "Modular"⟩, ⟨"manual-flex", "Manual Flex"⟩]

/-- A file record (`FileRecord = FileMetrics & {id, groupId, order}`). -/
structure FileRecord (α : Type) extends FileMetrics α where
  id : String
  groupId : String
  order : ℚ
deriving DecidableEq

/-- The comparison `(a, b) => a.order - b.order` passed to `Array.sort`:
sort ascending by `order`. -/
def recOrderLE (a b : FileRecord α) : Prop := a.order ≤ b.order

instance : DecidableRel (@recOrderLE α) :=
  fun a b => inferInstanceAs (Decidable (a.order ≤ b.order))

instance : IsTotal (FileRecord α) recOrderLE := ⟨fun a b => le_total a.order b.order⟩

instance : IsTrans (FileRecord α) recOrderLE := ⟨fun _ _ _ => le_trans⟩

/-- `new Map(entries).get(key)`: with duplicate keys, later entries win
(`Map.prototype.set` overwrites), hence a left fold keeping the last match. -/
def mapGet (entries : List (String × ℕ)) (key : String) : Option ℕ :=
  entries.foldl (fun acc p => if p.1 == key then some p.2 else acc) none

/-- The `orderMap` of `normalizeGroupOrders` (lines 131-136): the group's
members sorted by `order` (JavaScript `Array.sort` is a stable sort; we model
it with the stable `List.insertionSort`), each id paired with its index. -/
def normEntries (items : List (FileRecord α)) (groupId : String) :
    List (String × ℕ) :=
  (((items.filter (fun i => i.groupId == groupId)).insertionSort recOrderLE).enum).map
    (fun p => (p.2.id, p.1))

/-- The per-item rewrite of `normalizeGroupOrders` (lines 138-142): a member
of the group gets `orderMap.get(item.id) ?? item.order` as its new order,
other records are untouched. -/
def normPhi (items : List (FileRecord α)) (groupId : String)
    (item : FileRecord α) : FileRecord α :=
  if item.groupId == groupId then
    { item with
      order :=
        match mapGet (normEntries items groupId) item.id with
        | some i => (i : ℚ)
        | none => item.order }
  else item

/-- `normalizeGroupOrders` (lines 130-143). -/
def normalizeGroupOrders (items : List (FileRecord α)) (groupId : String) :
    List (FileRecord α) :=
  items.map (normPhi items groupId)

/-- The per-item rewrite of `assignGroup` (lines 282-284): the record with
the given id moves to the destination group at the destination's current
size, other records are untouched. -/
def assignPhi (fileId groupId : String) (destinationOrder : ℕ)
    (item : FileRecord α) : FileRecord α :=
  if item.id == fileId then
    { item with groupId := groupId, order := (destinationOrder : ℚ) }
  else item

/-- `assignGroup` (lines 276-289): move the record with the given id to the
destination group, appending it with `order` equal to the destination's
current size, then renumber both the source and the destination group. -/
def assignGroup (fileId groupId : String) (prev : List (FileRecord α)) :
    List (FileRecord α) :=
  match prev.find? (fun item => item.id == fileId) with
  | none => prev
  | some target =>
    if target.groupId == groupId then prev
    else
      let destinationOrder := (prev.filter (fun item => item.groupId == groupId)).length
      let next := prev.map (assignPhi fileId groupId destinationOrder)
      let next := normalizeGroupOrders next target.groupId
      normalizeGroupOrders next groupId

/-- The page state touched by `handleFiles`: the stored results and the
error message. -/
structure AppState (α : Type) where
  results : List (FileRecord α)
  error : Option String
deriving DecidableEq

/-- `handleFiles` (lines 293-322), as a pure state transition.  A file is a
`(name, text)` pair; `mkId` abstracts `makeId` (whose value draws on
`Date.now` and `Math.random`).  An empty selection leaves the state alone;
an invalid frame rate (`!Number.isFinite(fps) || fps <= 0`) sets the error
message and parses nothing; otherwise every file is parsed and the records
are appended to the first group with fresh contiguous orders. -/
def handleFiles (s : α → α) (toF : ℚ → α) (mkId : String → ℕ → String)
    (groups : List Group) (fps : JS α) (files : List (String × String))
    (st : AppState α) : AppState α :=
  if files.isEmpty then st
  else if !fps.isFinite || fps.le (JS.num 0) then
    { st with error := some "FPS must be a positive number." }
  else
    let parsed := files.map (fun f => parseFile s toF f.1 f.2 fps)
    let defaultGroupId :=
      match groups.head? with
      | some g => g.id
      | none => (DEFAULT_GROUPS.headD ⟨"", ""⟩).id
    let offset := (st.results.filter (fun r => r.groupId == defaultGroupId)).length
    let appended := parsed.enum.map (fun p =>
      { toFileMetrics := p.2, id := mkId p.2.fileName p.1,
        groupId := defaultGroupId, order := ((offset + p.1 : ℕ) : ℚ) })
    { results := st.results ++ appended, error := none }

/-! ### Spec-side definitions

These do not come from the source: they transcribe phrases of the
specification so that the code's behaviour can be compared against them. -/

/-- Modelled from the spec: the number of non-empty lines of a file (lines
whose trimmed content is not empty). -/
def nonEmptyLineCount (text : String) : ℕ :=
  ((splitLines text).filter (fun l => !(jsTrim l == ""))).length

/-- Modelled from the spec: the Euclidean distance between two points with
finite coordinates, as plain real arithmetic. -/
noncomputable def specEuclidDist (a b : ParsedPoint ℝ) : ℝ :=
  Real.sqrt ((b.x.valD - a.x.valD) ^ 2 + (b.y.valD - a.y.valD) ^ 2 +
    (b.z.valD - a.z.valD) ^ 2)

/-- All three coordinates of the point are finite. -/
def ParsedPoint.finiteCoords (p : ParsedPoint α) : Prop :=
  (∃ a, p.x = JS.num a) ∧ (∃ a, p.y = JS.num a) ∧ (∃ a, p.z = JS.num a)

/-! ### Verification of the specification claims -/

theorem lt_jmax_zero {α : Type} [LinearOrderedField α] (y : JS α) :
    JS.lt (JS.jmax (JS.num 0) y) (JS.num 0) = false := by
  cases y <;> simp [JS.jmax, JS.lt, decide_eq_false_iff_not, not_lt]

/-- C2: for every input file and positive fps, if the token stage parses fewer than
2 valid points, `parseFile` returns the record whose derived metrics are all 0,
whose point count is the number of parsed points, and whose skip counter is
exactly the token-stage skip counter. -/
theorem c2 (fileName text : String) (c : ℝ) (_hc : 0 < c)
    (h : (parsePoints text).1.length < 2) :
    parseFile Real.sqrt Rat.cast fileName text (JS.num c) =
      ⟨fileName, (parsePoints text).1.length, (parsePoints text).2,
        JS.num 0, JS.num 0, JS.num 0, JS.num 0, JS.num 0⟩ := by
  rw [parseFile]
  rcases hp : (parsePoints text).1 with _ | ⟨p, _ | ⟨q, rest⟩⟩
  · simp [hp, parseFileMetrics]
  · simp [hp, parseFileMetrics]
  · rw [hp] at h; exact absurd h (by simp)

/-- Witness for C2 at the file "1 2 3\nhello" and fps 30. -/
theorem c2_witness :
    (0:ℝ) < 30 ∧ (parsePoints "1 2 3\nhello").1.length < 2 ∧
    parseFile Real.sqrt Rat.cast "f" "1 2 3\nhello" (JS.num 30) =
      ⟨"f", 0, 2, JS.num 0, JS.num 0, JS.num 0, JS.num 0, JS.num 0⟩ := by
  refine ⟨by norm_num, by with_unfolding_all decide, ?_⟩
  rw [c2 "f" "1 2 3\nhello" 30 (by norm_num) (by with_unfolding_all decide)]
  congr 1

/-- C4: for every point sequence of at least 2 points and positive fps, durationSec
equals Math.max(0, (last.frame - first.frame) / fps), computed from the first and
last point only, and the comparison durationSec < 0 is always false. -/
theorem c4 (fileName : String) (p0 p1 : ParsedPoint ℝ) (rest : List (ParsedPoint ℝ))
    (skipped0 : ℕ) (c : ℝ) (_hc : 0 < c) :
    (parseFileMetrics Real.sqrt fileName (p0 :: p1 :: rest) skipped0 (JS.num c)).durationSec =
      JS.jmax (JS.num 0) ((((p0 :: p1 :: rest).getLast (by simp)).frame.sub p0.frame).div (JS.num c))
    ∧ JS.lt ((parseFileMetrics Real.sqrt fileName (p0 :: p1 :: rest) skipped0 (JS.num c)).durationSec)
        (JS.num 0) = false := by
  constructor
  · rfl
  · rw [show (parseFileMetrics Real.sqrt fileName (p0 :: p1 :: rest) skipped0 (JS.num c)).durationSec =
        JS.jmax (JS.num 0) ((((p0 :: p1 :: rest).getLast (by simp)).frame.sub p0.frame).div (JS.num c)) from rfl]
    exact lt_jmax_zero _

/-- C5: for every point sequence of at least 2 points, averageSpeed is
totalPath / durationSec when durationSec > 0 (and then the divisor is provably not
the number 0), and averageSpeed is 0 whenever durationSec is the number 0. -/
theorem c5 (fileName : String) (p0 p1 : ParsedPoint ℝ) (rest : List (ParsedPoint ℝ))
    (skipped0 : ℕ) (fps : JS ℝ) :
    (JS.lt (JS.num 0) (parseFileMetrics Real.sqrt fileName (p0 :: p1 :: rest) skipped0 fps).durationSec = true →
      (parseFileMetrics Real.sqrt fileName (p0 :: p1 :: rest) skipped0 fps).averageSpeed =
        ((parseFileMetrics Real.sqrt fileName (p0 :: p1 :: rest) skipped0 fps).totalPath).div
          ((parseFileMetrics Real.sqrt fileName (p0 :: p1 :: rest) skipped0 fps).durationSec)
      ∧ (parseFileMetrics Real.sqrt fileName (p0 :: p1 :: rest) skipped0 fps).durationSec ≠ JS.num 0)
    ∧ ((parseFileMetrics Real.sqrt fileName (p0 :: p1 :: rest) skipped0 fps).durationSec = JS.num 0 →
      (parseFileMetrics Real.sqrt fileName (p0 :: p1 :: rest) skipped0 fps).averageSpeed = JS.num 0) := by
  simp only [parseFileMetrics]
  constructor
  · intro h
    constructor
    · simp only [h, if_true]
    · intro heq
      rw [heq] at h
      simp [JS.lt, decide_eq_true_eq] at h
  · intro h
    rw [h]
    simp [JS.lt]

theorem segFold_spec {α : Type} [LinearOrderedField α] (s : α → α) (fps : JS α)
    (l : List (ParsedPoint α × ParsedPoint α)) : ∀ (tp ms : JS α) (k : ℕ),
    l.foldl (segStep s fps) (tp, ms, k) =
      (((l.filter (fun pr => !(pr.2.frame.sub pr.1.frame).le (JS.num 0))).map
          (fun pr => distance s pr.1 pr.2)).foldl JS.add tp,
        ((l.filter (fun pr => !(pr.2.frame.sub pr.1.frame).le (JS.num 0))).map
          (fun pr => (distance s pr.1 pr.2).div ((pr.2.frame.sub pr.1.frame).div fps))).foldl
          JS.jmax ms,
        k + (l.filter (fun pr => (pr.2.frame.sub pr.1.frame).le (JS.num 0))).length) := by
  induction l with
  | nil => intro tp ms k; simp
  | cons pr l ih =>
    intro tp ms k
    by_cases hb : (pr.2.frame.sub pr.1.frame).le (JS.num 0) = true
    · simp [segStep, hb, ih, Nat.add_assoc, Nat.add_comm, Nat.add_left_comm]
    · have hb' : (pr.2.frame.sub pr.1.frame).le (JS.num 0) = false := by simpa using hb
      simp [segStep, hb', ih]

/-- C3: for every point sequence of at least 2 points, the skip counter grows by
exactly the number of consecutive pairs with frame delta <= 0, while totalPath and
maxSpeed are the very folds obtained from the remaining pairs alone (skipped
segments contribute nothing and processing continues); moreover, on the concrete
file "0 0 0 0\n0 0 0 1" the points plus skipped count is 3, exceeding its 2
non-empty lines, because skipping happens at two distinct stages. -/
theorem c3 (fileName : String) (p0 p1 : ParsedPoint ℝ) (rest : List (ParsedPoint ℝ))
    (skipped0 : ℕ) (fps : JS ℝ) :
    (parseFileMetrics Real.sqrt fileName (p0 :: p1 :: rest) skipped0 fps).skipped =
      skipped0 + (((p0 :: p1 :: rest).zip (p1 :: rest)).filter
        (fun pr => (pr.2.frame.sub pr.1.frame).le (JS.num 0))).length
    ∧ (parseFileMetrics Real.sqrt fileName (p0 :: p1 :: rest) skipped0 fps).totalPath =
      ((((p0 :: p1 :: rest).zip (p1 :: rest)).filter
          (fun pr => !(pr.2.frame.sub pr.1.frame).le (JS.num 0))).map
        (fun pr => distance Real.sqrt pr.1 pr.2)).foldl JS.add (JS.num 0)
    ∧ (parseFileMetrics Real.sqrt fileName (p0 :: p1 :: rest) skipped0 fps).maxSpeed =
      ((((p0 :: p1 :: rest).zip (p1 :: rest)).filter
          (fun pr => !(pr.2.frame.sub pr.1.frame).le (JS.num 0))).map
        (fun pr => (distance Real.sqrt pr.1 pr.2).div ((pr.2.frame.sub pr.1.frame).div fps))).foldl
        JS.jmax (JS.num 0)
    ∧ (parseFile Real.sqrt Rat.cast "f" "0 0 0 0\n0 0 0 1" (JS.num 30)).points +
        (parseFile Real.sqrt Rat.cast "f" "0 0 0 0\n0 0 0 1" (JS.num 30)).skipped = 3
    ∧ nonEmptyLineCount "0 0 0 0\n0 0 0 1" = 2 := by
  refine ⟨?_, ?_, ?_, ?_, by with_unfolding_all decide⟩
  · show ((((p0 :: p1 :: rest).zip (p1 :: rest)).foldl (segStep Real.sqrt fps)
      (JS.num 0, JS.num 0, skipped0))).2.2 = _
    rw [segFold_spec]
  · show ((((p0 :: p1 :: rest).zip (p1 :: rest)).foldl (segStep Real.sqrt fps)
      (JS.num 0, JS.num 0, skipped0))).1 = _
    rw [segFold_spec]
  · show ((((p0 :: p1 :: rest).zip (p1 :: rest)).foldl (segStep Real.sqrt fps)
      (JS.num 0, JS.num 0, skipped0))).2.1 = _
    rw [segFold_spec]
  · have hp : parsePoints "0 0 0 0\n0 0 0 1" =
        ([⟨JS.num 0, JS.num 0, JS.num 0, JS.num 0⟩, ⟨JS.num 0, JS.num 0, JS.num 0, JS.num 1⟩], 0) := by
      with_unfolding_all decide
    rw [parseFile, hp]
    norm_num [parseFileMetrics, segStep, distance, castPoint, JS.map, JS.sub, JS.add, JS.neg,
      JS.mul, JS.div, JS.jmax, JS.le, JS.lt, JS.sqrtJS, List.getLast, max_def]

/-- Witness for C4 at two concrete points and fps 30. -/
theorem c4_witness :
    (0:ℝ) < 30 ∧
    (parseFileMetrics Real.sqrt "f"
      [(⟨JS.num 0, JS.num 0, JS.num 0, JS.num 0⟩ : ParsedPoint ℝ),
        ⟨JS.num 30, JS.num 0, JS.num 0, JS.num 90⟩] 0 (JS.num 30)).durationSec =
      JS.jmax (JS.num 0)
        ((([(⟨JS.num 0, JS.num 0, JS.num 0, JS.num 0⟩ : ParsedPoint ℝ),
            ⟨JS.num 30, JS.num 0, JS.num 0, JS.num 90⟩].getLast (by simp)).frame.sub
          (⟨JS.num 0, JS.num 0, JS.num 0, JS.num 0⟩ : ParsedPoint ℝ).frame).div (JS.num 30))
    ∧ JS.lt ((parseFileMetrics Real.sqrt "f"
        [(⟨JS.num 0, JS.num 0, JS.num 0, JS.num 0⟩ : ParsedPoint ℝ),
          ⟨JS.num 30, JS.num 0, JS.num 0, JS.num 90⟩] 0 (JS.num 30)).durationSec)
        (JS.num 0) = false :=
  ⟨by norm_num,
    (c4 "f" ⟨JS.num 0, JS.num 0, JS.num 0, JS.num 0⟩ ⟨JS.num 30, JS.num 0, JS.num 0, JS.num 90⟩
      [] 0 30 (by norm_num)).1,
    (c4 "f" ⟨JS.num 0, JS.num 0, JS.num 0, JS.num 0⟩ ⟨JS.num 30, JS.num 0, JS.num 0, JS.num 90⟩
      [] 0 30 (by norm_num)).2⟩

/-- Witness for C5 at two concrete points with durationSec 1. -/
theorem c5_witness :
    JS.lt (JS.num 0) ((parseFileMetrics Real.sqrt "f"
      [(⟨JS.num 0, JS.num 0, JS.num 0, JS.num 0⟩ : ParsedPoint ℝ),
        ⟨JS.num 30, JS.num 0, JS.num 0, JS.num 90⟩] 0 (JS.num 30)).durationSec) = true
    ∧ ((parseFileMetrics Real.sqrt "f"
        [(⟨JS.num 0, JS.num 0, JS.num 0, JS.num 0⟩ : ParsedPoint ℝ),
          ⟨JS.num 30, JS.num 0, JS.num 0, JS.num 90⟩] 0 (JS.num 30)).averageSpeed =
      ((parseFileMetrics Real.sqrt "f"
        [(⟨JS.num 0, JS.num 0, JS.num 0, JS.num 0⟩ : ParsedPoint ℝ),
          ⟨JS.num 30, JS.num 0, JS.num 0, JS.num 90⟩] 0 (JS.num 30)).totalPath).div
        ((parseFileMetrics Real.sqrt "f"
          [(⟨JS.num 0, JS.num 0, JS.num 0, JS.num 0⟩ : ParsedPoint ℝ),
            ⟨JS.num 30, JS.num 0, JS.num 0, JS.num 90⟩] 0 (JS.num 30)).durationSec)
      ∧ (parseFileMetrics Real.sqrt "f"
          [(⟨JS.num 0, JS.num 0, JS.num 0, JS.num 0⟩ : ParsedPoint ℝ),
            ⟨JS.num 30, JS.num 0, JS.num 0, JS.num 90⟩] 0 (JS.num 30)).durationSec ≠ JS.num 0) := by
  have h : JS.lt (JS.num 0) ((parseFileMetrics Real.sqrt "f"
      [(⟨JS.num 0, JS.num 0, JS.num 0, JS.num 0⟩ : ParsedPoint ℝ),
        ⟨JS.num 30, JS.num 0, JS.num 0, JS.num 90⟩] 0 (JS.num 30)).durationSec) = true := by
    norm_num [parseFileMetrics, JS.sub, JS.add, JS.neg, JS.div, JS.jmax, JS.lt, List.getLast, max_def]
  exact ⟨h, (c5 "f" ⟨JS.num 0, JS.num 0, JS.num 0, JS.num 0⟩
    ⟨JS.num 30, JS.num 0, JS.num 0, JS.num 90⟩ [] 0 (JS.num 30)).1 h⟩

theorem classify_point_of_tokens (raw : String) (h1 : jsTrim raw ≠ "")
    (h2 : 4 ≤ (splitWs (jsTrim raw)).length)
    (h3 : ∀ t ∈ (splitWs (jsTrim raw)).take 4, (toNumber t).isNaN = false) :
    ∃ p, classifyLine raw = .point p := by
  unfold classifyLine
  rw [if_neg h1]
  rcases hsp : splitWs (jsTrim raw) with _ | ⟨t0, _ | ⟨t1, _ | ⟨t2, _ | ⟨t3, ts⟩⟩⟩⟩ <;>
    rw [hsp] at h2 h3 <;> simp_all

/-- C10: token validation rejects only NaN: any trimmed line with at least 4
tokens, none of which coerces to NaN, yields a point; "0 Infinity 0 0" is accepted
as the point (0, Infinity, 0, 0); and the file "0 0 0 0\n1 Infinity 0 0" yields
totalPath and maxSpeed equal to Infinity. -/
theorem c10 :
    (∀ raw : String, jsTrim raw ≠ "" → 4 ≤ (splitWs (jsTrim raw)).length →
      (∀ t ∈ (splitWs (jsTrim raw)).take 4, (toNumber t).isNaN = false) →
      ∃ p, classifyLine raw = .point p)
    ∧ classifyLine "0 Infinity 0 0" = .point ⟨JS.num 0, JS.posInf, JS.num 0, JS.num 0⟩
    ∧ (parseFile Real.sqrt Rat.cast "f" "0 0 0 0\n1 Infinity 0 0" (JS.num 30)).totalPath = JS.posInf
    ∧ (parseFile Real.sqrt Rat.cast "f" "0 0 0 0\n1 Infinity 0 0" (JS.num 30)).maxSpeed = JS.posInf := by
  refine ⟨classify_point_of_tokens, by with_unfolding_all decide, ?_, ?_⟩ <;>
  · have hp : parsePoints "0 0 0 0\n1 Infinity 0 0" =
        ([⟨JS.num 0, JS.num 0, JS.num 0, JS.num 0⟩, ⟨JS.num 1, JS.posInf, JS.num 0, JS.num 0⟩], 0) := by
      with_unfolding_all decide
    rw [parseFile, hp]
    norm_num [parseFileMetrics, segStep, distance, castPoint, JS.map, JS.sub, JS.add, JS.neg,
      JS.mul, JS.div, JS.jmax, JS.le, JS.lt, JS.sqrtJS, List.getLast, max_def]

/-- Counterexample to C7 as stated: for the file "0 Infinity 0 0\n1 0 0 0" the
maxDisplacement is NaN, so the comparison 0 <= maxDisplacement is false. -/
theorem c7_counter :
    (parseFile Real.sqrt Rat.cast "f" "0 Infinity 0 0\n1 0 0 0" (JS.num 30)).maxDisplacement = JS.nan
    ∧ JS.le (JS.num (0:ℝ)) ((parseFile Real.sqrt Rat.cast "f" "0 Infinity 0 0\n1 0 0 0" (JS.num 30)).maxDisplacement) = false := by
  have hp : parsePoints "0 Infinity 0 0\n1 0 0 0" =
      ([⟨JS.num 0, JS.posInf, JS.num 0, JS.num 0⟩, ⟨JS.num 1, JS.num 0, JS.num 0, JS.num 0⟩], 0) := by
    with_unfolding_all decide
  rw [parseFile, hp]
  norm_num [parseFileMetrics, segStep, distance, castPoint, JS.map, JS.sub, JS.add, JS.neg,
    JS.mul, JS.div, JS.jmax, JS.le, JS.lt, JS.sqrtJS, List.getLast, max_def]

theorem parseFold_spec (lines : List String) :
    ∀ acc : List (ParsedPoint ℚ) × ℕ,
    lines.foldl
      (fun acc raw =>
        match classifyLine raw with
        | .empty => acc
        | .skip => (acc.1, acc.2 + 1)
        | .point p => (acc.1 ++ [p], acc.2)) acc =
      (acc.1 ++ lines.filterMap (fun raw => (classifyLine raw).point?),
        acc.2 + (lines.filter (fun raw => (classifyLine raw).isSkip)).length) := by
  induction lines with
  | nil => intro acc; simp
  | cons raw lines ih =>
    intro acc
    rcases h : classifyLine raw with _ | _ | p <;>
      simp [h, ih, LineResult.point?, LineResult.isSkip, Nat.add_assoc, Nat.add_comm,
        Nat.add_left_comm]

theorem parsePoints_spec (text : String) :
    parsePoints text =
      ((splitLines text).filterMap (fun raw => (classifyLine raw).point?),
        ((splitLines text).filter (fun raw => (classifyLine raw).isSkip)).length) := by
  rw [parsePoints, parseFold_spec]
  simp

theorem classify_skip_of_bad (raw : String) (h1 : jsTrim raw ≠ "")
    (h2 : (splitWs (jsTrim raw)).length < 4 ∨
      ∃ t ∈ (splitWs (jsTrim raw)).take 4, (toNumber t).isNaN = true) :
    classifyLine raw = .skip := by
  unfold classifyLine
  rw [if_neg h1]
  rcases hsp : splitWs (jsTrim raw) with _ | ⟨t0, _ | ⟨t1, _ | ⟨t2, _ | ⟨t3, ts⟩⟩⟩⟩ <;>
    rw [hsp] at h2 <;> simp_all
  intro e0 e1 e2
  rcases h2 with h | h | h | h | h
  · exact absurd h (by omega)
  · exact absurd h (by rw [e0]; simp)
  · exact absurd h (by rw [e1]; simp)
  · exact absurd h (by rw [e2]; simp)
  · exact h

/-- C6: `parsePoints` yields exactly the points of the non-skipped lines in file
order, with the skip counter counting the skipped lines; a line is ignored
silently if its trim is empty; it is skipped if it has fewer than 4 tokens or one
of the first 4 tokens coerces to NaN; it yields a point otherwise; in particular
"1 2 3" is always skipped. -/
theorem c6 :
    (∀ text : String, parsePoints text =
      ((splitLines text).filterMap (fun raw => (classifyLine raw).point?),
        ((splitLines text).filter (fun raw => (classifyLine raw).isSkip)).length))
    ∧ (∀ raw : String, jsTrim raw = "" → classifyLine raw = .empty)
    ∧ (∀ raw : String, jsTrim raw ≠ "" →
        ((splitWs (jsTrim raw)).length < 4 ∨
          ∃ t ∈ (splitWs (jsTrim raw)).take 4, (toNumber t).isNaN = true) →
        classifyLine raw = .skip)
    ∧ (∀ raw : String, jsTrim raw ≠ "" → 4 ≤ (splitWs (jsTrim raw)).length →
        (∀ t ∈ (splitWs (jsTrim raw)).take 4, (toNumber t).isNaN = false) →
        ∃ p, classifyLine raw = .point p)
    ∧ classifyLine "1 2 3" = .skip := by
  refine ⟨parsePoints_spec, ?_, classify_skip_of_bad, classify_point_of_tokens,
    by with_unfolding_all decide⟩
  intro raw h1
  unfold classifyLine
  rw [if_pos h1]

theorem jmax_notneg {α : Type} [LinearOrderedField α] (a b : JS α)
    (h : a = JS.nan ∨ a = JS.posInf ∨ ∃ x, a = JS.num x ∧ 0 ≤ x) :
    JS.jmax a b = JS.nan ∨ JS.jmax a b = JS.posInf ∨
      ∃ x, JS.jmax a b = JS.num x ∧ 0 ≤ x := by
  rcases h with h | h | ⟨x, h, hx⟩ <;> subst h <;> cases b <;>
    simp [JS.jmax] <;>
    first
      | exact Or.inl hx
      | exact hx

theorem lt_zero_false_of_notneg {α : Type} [LinearOrderedField α] (v : JS α)
    (h : v = JS.nan ∨ v = JS.posInf ∨ ∃ x, v = JS.num x ∧ 0 ≤ x) :
    JS.lt v (JS.num 0) = false := by
  rcases h with h | h | ⟨x, h, hx⟩ <;> subst h
  · simp [JS.lt]
  · simp [JS.lt]
  · simp only [JS.lt, decide_eq_false_iff_not, not_lt]
    exact hx

theorem foldl_jmax_notneg {α : Type} [LinearOrderedField α]
    (f : ParsedPoint α → JS α) (l : List (ParsedPoint α)) :
    ∀ (init : JS α),
      (init = JS.nan ∨ init = JS.posInf ∨ ∃ x, init = JS.num x ∧ 0 ≤ x) →
      (l.foldl (fun md p => JS.jmax md (f p)) init = JS.nan ∨
        l.foldl (fun md p => JS.jmax md (f p)) init = JS.posInf ∨
        ∃ x, l.foldl (fun md p => JS.jmax md (f p)) init = JS.num x ∧ 0 ≤ x) := by
  induction l with
  | nil => intro init h; simpa using h
  | cons p l ih =>
    intro init h
    simpa using ih (JS.jmax init (f p)) (jmax_notneg init (f p) h)

theorem distance_num (a b : ParsedPoint ℝ) (ha : a.finiteCoords) (hb : b.finiteCoords) :
    distance Real.sqrt a b = JS.num (specEuclidDist a b) := by
  obtain ⟨⟨ax, hax⟩, ⟨ay, hay⟩, ⟨az, haz⟩⟩ := ha
  obtain ⟨⟨bx, hbx⟩, ⟨by', hby⟩, ⟨bz, hbz⟩⟩ := hb
  rw [distance, specEuclidDist, hax, hay, haz, hbx, hby, hbz]
  simp only [JS.sub, JS.add, JS.neg, JS.mul, JS.sqrtJS, JS.valD]
  rw [if_neg (by
    push_neg
    nlinarith [mul_self_nonneg (bx + -ax), mul_self_nonneg (by' + -ay),
      mul_self_nonneg (bz + -az)])]
  ring_nf

theorem foldl_jmax_num (g : ParsedPoint ℝ → ℝ) (f : ParsedPoint ℝ → JS ℝ)
    (l : List (ParsedPoint ℝ)) (hfg : ∀ p ∈ l, f p = JS.num (g p)) :
    ∀ c : ℝ, l.foldl (fun md p => JS.jmax md (f p)) (JS.num c) =
      JS.num ((l.map g).foldl max c) := by
  induction l with
  | nil => intro c; simp
  | cons p l ih =>
    intro c
    have hp : f p = JS.num (g p) := hfg p (by simp)
    simp only [List.foldl, List.map, hp, JS.jmax]
    exact ih (fun q hq => hfg q (by simp [hq])) (max c (g p))

theorem foldl_max_bounds (ds : List ℝ) : ∀ c : ℝ,
    (c ≤ ds.foldl max c ∧ ∀ x ∈ ds, x ≤ ds.foldl max c) ∧
      (ds.foldl max c = c ∨ ds.foldl max c ∈ ds) := by
  induction ds with
  | nil => intro c; simp
  | cons d ds ih =>
    intro c
    simp only [List.foldl]
    obtain ⟨⟨h1, h2⟩, h3⟩ := ih (max c d)
    refine ⟨⟨le_trans (le_max_left c d) h1, ?_⟩, ?_⟩
    · intro x hx
      rcases List.mem_cons.mp hx with rfl | hx
      · exact le_trans (le_max_right c _) h1
      · exact h2 x hx
    · rcases h3 with h3 | h3
      · rcases max_choice c d with hm | hm
        · exact Or.inl (by rw [h3, hm])
        · exact Or.inr (by rw [h3, hm]; exact List.mem_cons_self d ds)
      · exact Or.inr (List.mem_cons_of_mem d h3)

theorem specEuclidDist_self (p : ParsedPoint ℝ) : specEuclidDist p p = 0 := by
  simp [specEuclidDist]

theorem maxDisplacement_eq_foldl (fileName : String) (p0 p1 : ParsedPoint ℝ)
    (rest : List (ParsedPoint ℝ)) (k : ℕ) (fps : JS ℝ) :
    (parseFileMetrics Real.sqrt fileName (p0 :: p1 :: rest) k fps).maxDisplacement =
      (p0 :: p1 :: rest).foldl
        (fun md p => JS.jmax md (distance Real.sqrt p0 p)) (JS.num 0) := rfl

/-- C7 (amended): maxDisplacement < 0 is false for every input; it is the number 0
for a single-point file; for at least 2 points whose coordinates are all finite it
is a number m >= 0 that bounds the Euclidean distance from the first point to
every point and is attained by one of them; hence it is 0 when all points
coincide with the first. -/
theorem c7_amended :
    (∀ (fileName : String) (pts : List (ParsedPoint ℝ)) (k : ℕ) (fps : JS ℝ),
      JS.lt ((parseFileMetrics Real.sqrt fileName pts k fps).maxDisplacement)
        (JS.num 0) = false)
    ∧ (∀ (fileName : String) (p : ParsedPoint ℝ) (k : ℕ) (fps : JS ℝ),
      (parseFileMetrics Real.sqrt fileName [p] k fps).maxDisplacement = JS.num 0)
    ∧ (∀ (fileName : String) (p0 p1 : ParsedPoint ℝ) (rest : List (ParsedPoint ℝ))
        (k : ℕ) (fps : JS ℝ), (∀ p ∈ p0 :: p1 :: rest, p.finiteCoords) →
      ∃ m : ℝ,
        (parseFileMetrics Real.sqrt fileName (p0 :: p1 :: rest) k fps).maxDisplacement =
          JS.num m
        ∧ 0 ≤ m ∧ (∀ p ∈ p0 :: p1 :: rest, specEuclidDist p0 p ≤ m)
        ∧ ∃ p ∈ p0 :: p1 :: rest, specEuclidDist p0 p = m)
    ∧ (∀ (fileName : String) (p0 p1 : ParsedPoint ℝ) (rest : List (ParsedPoint ℝ))
        (k : ℕ) (fps : JS ℝ), (∀ p ∈ p0 :: p1 :: rest, p.finiteCoords) →
      (∀ p ∈ p0 :: p1 :: rest, p.x = p0.x ∧ p.y = p0.y ∧ p.z = p0.z) →
      (parseFileMetrics Real.sqrt fileName (p0 :: p1 :: rest) k fps).maxDisplacement =
        JS.num 0) := by
  have key : ∀ (fileName : String) (p0 p1 : ParsedPoint ℝ) (rest : List (ParsedPoint ℝ))
      (k : ℕ) (fps : JS ℝ), (∀ p ∈ p0 :: p1 :: rest, p.finiteCoords) →
      ∃ m : ℝ,
        (parseFileMetrics Real.sqrt fileName (p0 :: p1 :: rest) k fps).maxDisplacement =
          JS.num m
        ∧ 0 ≤ m ∧ (∀ p ∈ p0 :: p1 :: rest, specEuclidDist p0 p ≤ m)
        ∧ ∃ p ∈ p0 :: p1 :: rest, specEuclidDist p0 p = m := by
    intro fileName p0 p1 rest k fps hfin
    have h0 : p0.finiteCoords := hfin p0 (by simp)
    have hd : ∀ p ∈ p0 :: p1 :: rest, distance Real.sqrt p0 p =
        JS.num (specEuclidDist p0 p) :=
      fun p hp => distance_num p0 p h0 (hfin p hp)
    rw [maxDisplacement_eq_foldl, foldl_jmax_num (specEuclidDist p0) _ _ hd 0]
    obtain ⟨⟨hc, hb⟩, ha⟩ := foldl_max_bounds ((p0 :: p1 :: rest).map (specEuclidDist p0)) 0
    refine ⟨_, rfl, hc, ?_, ?_⟩
    · intro p hp
      exact hb _ (List.mem_map_of_mem _ hp)
    · rcases ha with ha | ha
      · exact ⟨p0, by simp, by rw [specEuclidDist_self, ha]⟩
      · obtain ⟨p, hp, hpe⟩ := List.mem_map.mp ha
        exact ⟨p, hp, hpe⟩
  refine ⟨?_, ?_, key, ?_⟩
  · intro fileName pts k fps
    match pts with
    | [] => simp [parseFileMetrics, JS.lt]
    | [p] => simp [parseFileMetrics, JS.lt]
    | p0 :: p1 :: rest =>
      rw [maxDisplacement_eq_foldl]
      exact lt_zero_false_of_notneg _
        (foldl_jmax_notneg _ _ _ (Or.inr (Or.inr ⟨0, rfl, le_refl 0⟩)))
  · intro fileName p k fps
    rfl
  · intro fileName p0 p1 rest k fps hfin hco
    obtain ⟨m, hm, hm0, hub, p, hp, hpm⟩ := key fileName p0 p1 rest k fps hfin
    rw [hm]
    obtain ⟨hx, hy, hz⟩ := hco p hp
    have : specEuclidDist p0 p = 0 := by
      rw [specEuclidDist, hx, hy, hz]
      simp
    rw [← hpm, this]

/-- C8: for a non-empty batch, an fps that is not a finite positive number makes
`handleFiles` set the user-visible message with the stored results unchanged,
while a valid fps clears the error and appends one parsed record per file; the
default frame rate is 29.999. -/
theorem c8 (mkId : String → ℕ → String) (groups : List Group) (fps : JS ℝ)
    (files : List (String × String)) (hne : files ≠ []) (st : AppState ℝ) :
    ((!fps.isFinite || fps.le (JS.num 0)) = true →
      handleFiles Real.sqrt Rat.cast mkId groups fps files st =
        { st with error := some "FPS must be a positive number." })
    ∧ ((!fps.isFinite || fps.le (JS.num 0)) = false →
      (handleFiles Real.sqrt Rat.cast mkId groups fps files st).error = none ∧
      (handleFiles Real.sqrt Rat.cast mkId groups fps files st).results.length =
        st.results.length + files.length)
    ∧ DEFAULT_FPS = 29999 / 1000 := by
  have hne' : files.isEmpty = false := by
    simpa [List.isEmpty_iff] using hne
  refine ⟨?_, ?_, by norm_num [DEFAULT_FPS]⟩
  · intro h
    rw [handleFiles, if_neg (by simp [hne']), if_pos h]
  · intro h
    rw [handleFiles, if_neg (by simp [hne']), if_neg (by simp [h])]
    refine ⟨rfl, ?_⟩
    simp

/-- Witness for C8 with fps -1 (rejected) and fps 2 (accepted). -/
theorem c8_witness :
    ([(("a", "0 0 0 0") : String × String)] ≠ [] ∧
      (!(JS.num (-1:ℝ)).isFinite || (JS.num (-1:ℝ)).le (JS.num 0)) = true ∧
      handleFiles Real.sqrt Rat.cast (fun n _ => n) [] (JS.num (-1:ℝ))
        [("a", "0 0 0 0")] ⟨[], none⟩ =
        { results := ([] : List (FileRecord ℝ)),
          error := some "FPS must be a positive number." }) ∧
    ((!(JS.num (2:ℝ)).isFinite || (JS.num (2:ℝ)).le (JS.num 0)) = false ∧
      (handleFiles Real.sqrt Rat.cast (fun n _ => n) [] (JS.num (2:ℝ))
        [("a", "0 0 0 0")] ⟨[], none⟩).error = none ∧
      (handleFiles Real.sqrt Rat.cast (fun n _ => n) [] (JS.num (2:ℝ))
        [("a", "0 0 0 0")] ⟨[], none⟩).results.length = 1) := by
  have h1 : (!(JS.num (-1:ℝ)).isFinite || (JS.num (-1:ℝ)).le (JS.num 0)) = true := by
    norm_num [JS.isFinite, JS.le]
  have h2 : (!(JS.num (2:ℝ)).isFinite || (JS.num (2:ℝ)).le (JS.num 0)) = false := by
    norm_num [JS.isFinite, JS.le]
  refine ⟨⟨by simp, h1, ?_⟩, h2, ?_⟩
  · exact (c8 (fun n _ => n) [] (JS.num (-1:ℝ)) [("a", "0 0 0 0")] (by simp) ⟨[], none⟩).1 h1
  · exact (c8 (fun n _ => n) [] (JS.num (2:ℝ)) [("a", "0 0 0 0")] (by simp) ⟨[], none⟩).2.1 h2

theorem mapGet_of_not_mem (key : String) (l : List (String × ℕ))
    (h : ∀ p ∈ l, p.1 ≠ key) :
    ∀ a : Option ℕ, l.foldl (fun acc p => if p.1 == key then some p.2 else acc) a = a := by
  induction l with
  | nil => intro a; rfl
  | cons q l ih =>
    intro a
    have hq : (q.1 == key) = false := beq_eq_false_iff_ne.mpr (h q (by simp))
    simp only [List.foldl, hq, Bool.false_eq_true, if_false]
    exact ih (fun p hp => h p (by simp [hp])) a

theorem entries_keys {α : Type} (S : List (FileRecord α)) : ∀ o : ℕ,
    ((S.enumFrom o).map (fun p => (p.2.id, p.1))).map Prod.fst = S.map FileRecord.id := by
  induction S with
  | nil => intro o; rfl
  | cons r T ih => intro o; simp only [List.enumFrom, List.map]; rw [ih (o + 1)]

theorem mapGet_enumFrom {α : Type} (S : List (FileRecord α)) :
    ∀ (o j : ℕ) (hj : j < S.length), (S.map FileRecord.id).Nodup →
    mapGet ((S.enumFrom o).map (fun p => (p.2.id, p.1))) (S.get ⟨j, hj⟩).id =
      some (o + j) := by
  induction S with
  | nil => intro o j hj; exact absurd hj (by simp)
  | cons r T ih =>
    intro o j hj hnd
    have hnd' : (T.map FileRecord.id).Nodup := (List.nodup_cons.mp hnd).2
    have hrT : r.id ∉ T.map FileRecord.id := (List.nodup_cons.mp hnd).1
    match j with
    | 0 =>
      show mapGet ((r.id, o) :: (T.enumFrom (o + 1)).map (fun p => (p.2.id, p.1))) r.id =
        some (o + 0)
      rw [mapGet]
      simp only [List.foldl, beq_self_eq_true, if_true]
      rw [mapGet_of_not_mem r.id _ ?_ (some o)]
      · rw [Nat.add_zero]
      · intro p hp hpk
        apply hrT
        rw [← hpk]
        have : p.1 ∈ ((T.enumFrom (o + 1)).map (fun p => (p.2.id, p.1))).map Prod.fst :=
          List.mem_map_of_mem _ hp
        rwa [entries_keys T (o + 1)] at this
    | k + 1 =>
      have hk : k < T.length := by simpa using hj
      have hkey : ((r :: T).get ⟨k + 1, hj⟩).id = (T.get ⟨k, hk⟩).id := rfl
      rw [hkey]
      have hne : (r.id == (T.get ⟨k, hk⟩).id) = false := by
        refine beq_eq_false_iff_ne.mpr ?_
        intro he
        exact hrT (he ▸ List.mem_map_of_mem _ (T.get_mem _ _))
      show mapGet ((r.id, o) :: (T.enumFrom (o + 1)).map (fun p => (p.2.id, p.1)))
        (T.get ⟨k, hk⟩).id = some (o + (k + 1))
      rw [mapGet]
      simp only [List.foldl, hne, Bool.false_eq_true, if_false]
      have := ih (o + 1) k hk hnd'
      rw [mapGet] at this
      rw [this]
      congr 1
      omega

theorem normPhi_id {α : Type} (items : List (FileRecord α)) (g : String)
    (r : FileRecord α) : (normPhi items g r).id = r.id := by
  rw [normPhi]; split <;> rfl

theorem normPhi_groupId {α : Type} (items : List (FileRecord α)) (g : String)
    (r : FileRecord α) : (normPhi items g r).groupId = r.groupId := by
  rw [normPhi]; split <;> rfl

theorem filter_map_comm {α : Type} (l : List (FileRecord α))
    (φ : FileRecord α → FileRecord α) (p : FileRecord α → Bool)
    (hφ : ∀ r, p (φ r) = p r) :
    (l.map φ).filter p = (l.filter p).map φ := by
  rw [List.filter_map]
  congr 1
  exact List.filter_congr (fun r _ => hφ r)

theorem normalize_filter {α : Type} (items : List (FileRecord α)) (g g' : String) :
    (normalizeGroupOrders items g).filter (fun r => r.groupId == g') =
      (items.filter (fun r => r.groupId == g')).map (normPhi items g) := by
  rw [normalizeGroupOrders]
  exact filter_map_comm _ _ _ (fun r => by rw [normPhi_groupId])

theorem normalize_ids {α : Type} (items : List (FileRecord α)) (g : String) :
    (normalizeGroupOrders items g).map FileRecord.id = items.map FileRecord.id := by
  rw [normalizeGroupOrders, List.map_map]
  exact List.map_congr_left (fun r _ => normPhi_id items g r)

theorem normalize_orders_perm {α : Type} (items : List (FileRecord α)) (g : String)
    (h : (items.map FileRecord.id).Nodup) :
    (((normalizeGroupOrders items g).filter (fun r => r.groupId == g)).map
        FileRecord.order).Perm
      ((List.range
        ((normalizeGroupOrders items g).filter (fun r => r.groupId == g)).length).map
        (Nat.cast : ℕ → ℚ)) := by
  have hfil := normalize_filter items g g
  set G := items.filter (fun r => r.groupId == g) with hG
  set S := G.insertionSort recOrderLE with hS
  have hperm : S.Perm G := List.perm_insertionSort _ _
  have hGnd : (G.map FileRecord.id).Nodup :=
    h.sublist (List.Sublist.map _ (List.filter_sublist _))
  have hSnd : (S.map FileRecord.id).Nodup := (hperm.map FileRecord.id).nodup_iff.mpr hGnd
  have hSmap : S.map (fun r => FileRecord.order (normPhi items g r)) =
      (List.range S.length).map (Nat.cast : ℕ → ℚ) := by
    apply List.ext_getElem
    · rw [List.length_map, List.length_map, List.length_range]
    · intro j h1 h2
      have hjlt : j < S.length := by simpa using h1
      simp only [List.getElem_map, List.getElem_range]
      have hmemS : S.get ⟨j, hjlt⟩ ∈ S := List.get_mem S j hjlt
      have hmem : S.get ⟨j, hjlt⟩ ∈ G := hperm.mem_iff.mp hmemS
      have hmem' : S.get ⟨j, hjlt⟩ ∈ items.filter (fun r => r.groupId == g) := hG ▸ hmem
      have hgid : ((S.get ⟨j, hjlt⟩).groupId == g) = true :=
        (List.mem_filter.mp hmem').2
      have hmg : mapGet (normEntries items g) (S.get ⟨j, hjlt⟩).id = some j := by
        rw [normEntries, ← hG]
        have : S.enum = S.enumFrom 0 := rfl
        rw [← hS, this, mapGet_enumFrom S 0 j hjlt hSnd, Nat.zero_add]
      show (normPhi items g (S.get ⟨j, hjlt⟩)).order = _
      rw [normPhi, if_pos hgid]
      rw [List.get_eq_getElem] at hmg
      simp [hmg]
  rw [hfil, List.length_map, List.map_map]
  calc G.map (FileRecord.order ∘ normPhi items g)
      |>.Perm (S.map (FileRecord.order ∘ normPhi items g)) := (hperm.map _).symm
    _ = (List.range S.length).map (Nat.cast : ℕ → ℚ) := hSmap
    _ = (List.range G.length).map (Nat.cast : ℕ → ℚ) := by rw [hperm.length_eq]

theorem normalize_top {α : Type} (items : List (FileRecord α)) (g : String)
    (t : FileRecord α) (hmem : t ∈ items) (hgt : (t.groupId == g) = true)
    (h : (items.map FileRecord.id).Nodup)
    (hmax : ∀ y ∈ items.filter (fun r => r.groupId == g), y.id ≠ t.id →
      y.order < t.order) :
    ∃ r ∈ (normalizeGroupOrders items g).filter (fun r => r.groupId == g),
      r.id = t.id ∧
      r.order = ((((normalizeGroupOrders items g).filter
        (fun r => r.groupId == g)).length - 1 : ℕ) : ℚ) := by
  have hfil := normalize_filter items g g
  set G := items.filter (fun r => r.groupId == g) with hG
  set S := G.insertionSort recOrderLE with hS
  have hperm : S.Perm G := List.perm_insertionSort _ _
  have hGnd : (G.map FileRecord.id).Nodup :=
    h.sublist (List.Sublist.map _ (List.filter_sublist _))
  have hSnd : (S.map FileRecord.id).Nodup := (hperm.map FileRecord.id).nodup_iff.mpr hGnd
  have hsorted : List.Sorted recOrderLE S := List.sorted_insertionSort _ _
  have htG : t ∈ G := List.mem_filter.mpr ⟨hmem, hgt⟩
  have htS : t ∈ S := hperm.mem_iff.mpr htG
  obtain ⟨⟨j, hj⟩, hget⟩ := List.mem_iff_get.mp htS
  have hlast : j = S.length - 1 := by
    by_contra hne
    have hj1 : j + 1 < S.length := by omega
    have hyS : S.get ⟨j + 1, hj1⟩ ∈ S := List.get_mem S (j + 1) hj1
    have hyG : S.get ⟨j + 1, hj1⟩ ∈ G := hperm.mem_iff.mp hyS
    have hyid : (S.get ⟨j + 1, hj1⟩).id ≠ t.id := by
      intro he
      have hmapeq : (S.map FileRecord.id).get ⟨j, by simpa using hj⟩ =
          (S.map FileRecord.id).get ⟨j + 1, by simpa using hj1⟩ := by
        simp only [List.get_map]
        rw [hget, he]
      have := hSnd.get_inj_iff.mp hmapeq
      simp at this
    have h1 : recOrderLE t (S.get ⟨j + 1, hj1⟩) := by
      rw [← hget]
      exact List.Sorted.rel_get_of_lt hsorted (by simp)
    have h2 : (S.get ⟨j + 1, hj1⟩).order < t.order := by
      apply hmax _ (hG ▸ hyG) hyid
    exact absurd h1 (not_le.mpr h2)
  have hmg : mapGet (normEntries items g) t.id = some j := by
    rw [normEntries, ← hG]
    have henum : S.enum = S.enumFrom 0 := rfl
    rw [← hS, henum, ← hget, mapGet_enumFrom S 0 j hj hSnd, Nat.zero_add]
  refine ⟨normPhi items g t, ?_, ?_, ?_⟩
  · rw [hfil]
    exact List.mem_map_of_mem _ htG
  · exact normPhi_id items g t
  · rw [hfil, List.length_map]
    show (normPhi items g t).order = ((G.length - 1 : ℕ) : ℚ)
    rw [normPhi, if_pos hgt]
    simp only [hmg]
    rw [hperm.length_eq] at hlast
    rw [hlast]

theorem assignPhi_id {α : Type} (fileId groupId : String) (d : ℕ)
    (r : FileRecord α) : (assignPhi fileId groupId d r).id = r.id := by
  rw [assignPhi]; split <;> rfl

theorem find_id_self {α : Type} (prev : List (FileRecord α)) (t : FileRecord α)
    (hmem : t ∈ prev) (hids : (prev.map FileRecord.id).Nodup) :
    prev.find? (fun item => item.id == t.id) = some t := by
  have hs : (prev.find? (fun item => item.id == t.id)).isSome := by
    rw [List.find?_isSome]
    exact ⟨t, hmem, beq_self_eq_true _⟩
  obtain ⟨z, hz⟩ := Option.isSome_iff_exists.mp hs
  have hzm := List.mem_of_find?_eq_some hz
  have hzp := List.find?_some hz
  have hze : z.id = t.id := by simpa using hzp
  rw [hz]
  congr 1
  exact List.inj_on_of_nodup_map hids hzm hmem hze

/-- C9 (amended): if record ids are distinct and the destination group orders are
contiguous from 0, then reassigning a file preserves the total record count,
leaves both the source and the destination group with order values that are a
permutation of 0..n-1, and places the reassigned file at the largest destination
order. -/
theorem c9_amended (prev : List (FileRecord ℝ)) (t : FileRecord ℝ) (gid : String)
    (hmem : t ∈ prev) (hids : (prev.map FileRecord.id).Nodup) (hg : t.groupId ≠ gid)
    (hdest : (((prev.filter (fun r => r.groupId == gid)).map FileRecord.order).Perm
      ((List.range (prev.filter (fun r => r.groupId == gid)).length).map
        (Nat.cast : ℕ → ℚ)))) :
    (assignGroup t.id gid prev).length = prev.length
    ∧ (((assignGroup t.id gid prev).filter (fun r => r.groupId == gid)).map
        FileRecord.order).Perm
      ((List.range
        ((assignGroup t.id gid prev).filter (fun r => r.groupId == gid)).length).map
        (Nat.cast : ℕ → ℚ))
    ∧ (((assignGroup t.id gid prev).filter (fun r => r.groupId == t.groupId)).map
        FileRecord.order).Perm
      ((List.range
        ((assignGroup t.id gid prev).filter (fun r => r.groupId == t.groupId)).length).map
        (Nat.cast : ℕ → ℚ))
    ∧ ∃ r ∈ (assignGroup t.id gid prev).filter (fun r => r.groupId == gid),
        r.id = t.id ∧ r.order =
          ((((assignGroup t.id gid prev).filter (fun r => r.groupId == gid)).length - 1 :
            ℕ) : ℚ) := by
  have hng : (t.groupId == gid) = false := beq_eq_false_iff_ne.mpr hg
  have hng' : (gid == t.groupId) = false := beq_eq_false_iff_ne.mpr (Ne.symm hg)
  set n0 := (prev.filter (fun item => item.groupId == gid)).length with hn0
  set N1 := prev.map (assignPhi t.id gid n0) with hN1
  set N2 := normalizeGroupOrders N1 t.groupId with hN2
  have hassign : assignGroup t.id gid prev = normalizeGroupOrders N2 gid := by
    rw [assignGroup, find_id_self prev t hmem hids]
    simp only [hng, Bool.false_eq_true, if_false]
  have hids1 : N1.map FileRecord.id = prev.map FileRecord.id := by
    rw [hN1, List.map_map]
    exact List.map_congr_left (fun r _ => assignPhi_id _ _ _ r)
  have hids2 : N2.map FileRecord.id = prev.map FileRecord.id := by
    rw [hN2, normalize_ids, hids1]
  have hnd1 : (N1.map FileRecord.id).Nodup := by rw [hids1]; exact hids
  have hnd2 : (N2.map FileRecord.id).Nodup := by rw [hids2]; exact hids
  have ht1e : assignPhi t.id gid n0 t = { t with groupId := gid, order := (n0 : ℚ) } := by
    rw [assignPhi]; simp
  refine ⟨?_, ?_, ?_, ?_⟩
  · rw [hassign]
    simp [normalizeGroupOrders, hN2, hN1]
  · rw [hassign]
    exact normalize_orders_perm N2 gid hnd2
  · rw [hassign]
    have hstage3 : (normalizeGroupOrders N2 gid).filter (fun r => r.groupId == t.groupId) =
        N2.filter (fun r => r.groupId == t.groupId) := by
      rw [normalizeGroupOrders]
      rw [filter_map_comm _ _ _ (fun r => by rw [normPhi_groupId])]
      have hid : ∀ r ∈ N2.filter (fun r => r.groupId == t.groupId),
          normPhi N2 gid r = r := by
        intro r hr
        have hrg : (r.groupId == t.groupId) = true := (List.mem_filter.mp hr).2
        have hrg2 : (r.groupId == gid) = false := by
          rw [show r.groupId = t.groupId from by simpa using hrg]
          exact hng
        rw [normPhi, hrg2]
        simp
      rw [List.map_congr_left hid]; simp
    rw [hstage3, hN2]
    exact normalize_orders_perm N1 t.groupId hnd1
  · rw [hassign]
    have ht1mem1 : ({ t with groupId := gid, order := (n0 : ℚ) } : FileRecord ℝ) ∈ N1 := by
      rw [hN1, ← ht1e]
      exact List.mem_map_of_mem _ hmem
    have ht1fix : normPhi N1 t.groupId
        ({ t with groupId := gid, order := (n0 : ℚ) } : FileRecord ℝ) =
        { t with groupId := gid, order := (n0 : ℚ) } := by
      rw [normPhi]
      simp only [hng']
      simp
    have ht1mem2 : ({ t with groupId := gid, order := (n0 : ℚ) } : FileRecord ℝ) ∈ N2 := by
      rw [hN2, normalizeGroupOrders, ← ht1fix]
      exact List.mem_map_of_mem _ ht1mem1
    have hmax : ∀ y ∈ N2.filter (fun r => r.groupId == gid),
        y.id ≠ ({ t with groupId := gid, order := (n0 : ℚ) } : FileRecord ℝ).id →
        y.order < ({ t with groupId := gid, order := (n0 : ℚ) } : FileRecord ℝ).order := by
      intro y hy hyid
      have hy2 := List.mem_filter.mp hy
      have hyg : (y.groupId == gid) = true := hy2.2
      have hy3 := hy2.1
      rw [hN2, normalizeGroupOrders] at hy3
      obtain ⟨x, hx1, hx2⟩ := List.mem_map.mp hy3
      have hxg : x.groupId = y.groupId := by rw [← hx2, normPhi_groupId]
      have hxfix : normPhi N1 t.groupId x = x := by
        rw [normPhi]
        have hxsrc : (x.groupId == t.groupId) = false := by
          rw [hxg, show y.groupId = gid from by simpa using hyg]
          exact hng'
        simp only [hxsrc]
        simp
      have hyx : y = x := by rw [← hx2, hxfix]
      rw [hN1] at hx1
      obtain ⟨z, hz1, hz2⟩ := List.mem_map.mp hx1
      by_cases hzt : (z.id == t.id) = true
      · exfalso
        have hzt2 : z = t := List.inj_on_of_nodup_map hids hz1 hmem (by simpa using hzt)
        apply hyid
        rw [hyx, ← hz2, hzt2, ht1e]
      · have hzx : x = z := by
          rw [← hz2, assignPhi]
          simp only [hzt, Bool.false_eq_true, if_false]
        have hzg : (z.groupId == gid) = true := by
          rw [← hzx, hxg, show y.groupId = gid from by simpa using hyg]
          simp
        have hzmem : z ∈ prev.filter (fun r => r.groupId == gid) :=
          List.mem_filter.mpr ⟨hz1, hzg⟩
        have hom : z.order ∈ (prev.filter (fun r => r.groupId == gid)).map
            FileRecord.order := List.mem_map_of_mem _ hzmem
        have hom2 := hdest.mem_iff.mp hom
        obtain ⟨k, hk1, hk2⟩ := List.mem_map.mp hom2
        have hklt : k < n0 := by rw [hn0]; simpa using hk1
        rw [hyx, hzx, ← hk2]
        show (k : ℚ) < (n0 : ℚ)
        exact_mod_cast hklt
    have hres := normalize_top N2 gid
      ({ t with groupId := gid, order := (n0 : ℚ) } : FileRecord ℝ)
      ht1mem2 (by simp) hnd2 hmax
    obtain ⟨r, hr1, hr2, hr3⟩ := hres
    exact ⟨r, hr1, hr2, hr3⟩

/-- Counterexample to C9 as stated: starting from records whose destination group
has the single order value 5 (not contiguous), the reassigned file ends up first,
not last, in the destination group order. -/
theorem c9_counter :
    ¬ ∃ r ∈ (assignGroup "t" "control"
        [(⟨⟨"a", 0, 0, JS.num 0, JS.num 0, JS.num 0, JS.num 0, JS.num 0⟩,
            "a", "control", 5⟩ : FileRecord ℝ),
          ⟨⟨"t", 0, 0, JS.num 0, JS.num 0, JS.num 0, JS.num 0, JS.num 0⟩,
            "t", "select-group", 0⟩]).filter (fun r => r.groupId == "control"),
      r.id = "t" ∧ r.order =
        ((((assignGroup "t" "control"
          [(⟨⟨"a", 0, 0, JS.num 0, JS.num 0, JS.num 0, JS.num 0, JS.num 0⟩,
              "a", "control", 5⟩ : FileRecord ℝ),
            ⟨⟨"t", 0, 0, JS.num 0, JS.num 0, JS.num 0, JS.num 0, JS.num 0⟩,
              "t", "select-group", 0⟩]).filter
          (fun r => r.groupId == "control")).length - 1 : ℕ) : ℚ) := by
  with_unfolding_all decide

/-- A file record with zeroed metrics, used in concrete group-management
scenarios. -/
def mkRecord (ident grp : String) (ord : ℚ) : FileRecord ℝ :=
  ⟨⟨ident, 0, 0, JS.num 0, JS.num 0, JS.num 0, JS.num 0, JS.num 0⟩, ident, grp, ord⟩

/-- Witness for the amended C9: moving file "a" into the "control" group. -/
theorem c9_amended_witness :
    (mkRecord "a" "select-group" 0 ∈ [mkRecord "a" "select-group" 0, mkRecord "b" "control" 0]
      ∧ (([mkRecord "a" "select-group" 0, mkRecord "b" "control" 0].map
          FileRecord.id).Nodup)
      ∧ (mkRecord "a" "select-group" 0).groupId ≠ "control"
      ∧ ((([mkRecord "a" "select-group" 0, mkRecord "b" "control" 0].filter
            (fun r => r.groupId == "control")).map FileRecord.order).Perm
          ((List.range
            ([mkRecord "a" "select-group" 0, mkRecord "b" "control" 0].filter
              (fun r => r.groupId == "control")).length).map (Nat.cast : ℕ → ℚ))))
    ∧ (assignGroup (mkRecord "a" "select-group" 0).id "control"
        [mkRecord "a" "select-group" 0, mkRecord "b" "control" 0]).length =
      [mkRecord "a" "select-group" 0, mkRecord "b" "control" 0].length
    ∧ ∃ r ∈ (assignGroup (mkRecord "a" "select-group" 0).id "control"
        [mkRecord "a" "select-group" 0, mkRecord "b" "control" 0]).filter
        (fun r => r.groupId == "control"),
      r.id = (mkRecord "a" "select-group" 0).id ∧ r.order =
        ((((assignGroup (mkRecord "a" "select-group" 0).id "control"
          [mkRecord "a" "select-group" 0, mkRecord "b" "control" 0]).filter
          (fun r => r.groupId == "control")).length - 1 : ℕ) : ℚ) := by
  have h1 : mkRecord "a" "select-group" 0 ∈
      [mkRecord "a" "select-group" 0, mkRecord "b" "control" 0] := by
    exact List.mem_cons_self _ _
  have h2 : (([mkRecord "a" "select-group" 0, mkRecord "b" "control" 0].map
      FileRecord.id).Nodup) := by
    with_unfolding_all decide
  have h3 : (mkRecord "a" "select-group" 0).groupId ≠ "control" := by
    with_unfolding_all decide
  have h4 : ((([mkRecord "a" "select-group" 0, mkRecord "b" "control" 0].filter
      (fun r => r.groupId == "control")).map FileRecord.order).Perm
      ((List.range
        ([mkRecord "a" "select-group" 0, mkRecord "b" "control" 0].filter
          (fun r => r.groupId == "control")).length).map (Nat.cast : ℕ → ℚ))) := by
    with_unfolding_all decide
  have hc := c9_amended [mkRecord "a" "select-group" 0, mkRecord "b" "control" 0]
    (mkRecord "a" "select-group" 0) "control" h1 h2 h3 h4
  exact ⟨⟨h1, h2, h3, h4⟩, hc.1, hc.2.2.2⟩

theorem sqrt8100 : Real.sqrt 8100 = 90 := by
  rw [show (8100:ℝ) = 90 ^ 2 by norm_num]
  exact Real.sqrt_sq (by norm_num)

/-- C1: for the file whose non-empty lines are "0 0 0 0" and "30 0 0 90", parsed at
fps 30, `parseFile` returns durationSec 1, averageSpeed 90, maxSpeed 90,
maxDisplacement 90, totalPath 90, 2 points and 0 skipped lines. -/
theorem c1 : parseFile Real.sqrt Rat.cast "f" "0 0 0 0\n30 0 0 90" (JS.num 30) =
    ⟨"f", 2, 0, JS.num 1, JS.num 90, JS.num 90, JS.num 90, JS.num 90⟩ := by
  have hp : parsePoints "0 0 0 0\n30 0 0 90" =
      ([⟨JS.num 0, JS.num 0, JS.num 0, JS.num 0⟩, ⟨JS.num 30, JS.num 0, JS.num 0, JS.num 90⟩], 0) := by
    with_unfolding_all decide
  rw [parseFile, hp]
  norm_num [parseFileMetrics, segStep, distance, castPoint, JS.map, JS.sub, JS.add, JS.neg,
    JS.mul, JS.div, JS.jmax, JS.le, JS.lt, JS.sqrtJS, List.getLast, max_def, sqrt8100]

/-- Witness for C10 at the line "0 Infinity 0 0". -/
theorem c10_witness :
    jsTrim "0 Infinity 0 0" ≠ "" ∧ 4 ≤ (splitWs (jsTrim "0 Infinity 0 0")).length ∧
    (∀ t ∈ (splitWs (jsTrim "0 Infinity 0 0")).take 4, (toNumber t).isNaN = false) ∧
    ∃ p, classifyLine "0 Infinity 0 0" = .point p := by
  have h1 : jsTrim "0 Infinity 0 0" ≠ "" := by with_unfolding_all decide
  have h2 : 4 ≤ (splitWs (jsTrim "0 Infinity 0 0")).length := by with_unfolding_all decide
  have h3 : ∀ t ∈ (splitWs (jsTrim "0 Infinity 0 0")).take 4,
      (toNumber t).isNaN = false := by with_unfolding_all decide
  exact ⟨h1, h2, h3, c10.1 "0 Infinity 0 0" h1 h2 h3⟩

/-- Witness for C6 at the lines "1 2 3" and " ". -/
theorem c6_witness :
    jsTrim "1 2 3" ≠ "" ∧
    ((splitWs (jsTrim "1 2 3")).length < 4 ∨
      ∃ t ∈ (splitWs (jsTrim "1 2 3")).take 4, (toNumber t).isNaN = true) ∧
    classifyLine "1 2 3" = .skip ∧
    jsTrim " " = "" ∧ classifyLine " " = .empty := by
  have h1 : jsTrim "1 2 3" ≠ "" := by with_unfolding_all decide
  have h2 : ((splitWs (jsTrim "1 2 3")).length < 4 ∨
      ∃ t ∈ (splitWs (jsTrim "1 2 3")).take 4, (toNumber t).isNaN = true) :=
    Or.inl (by with_unfolding_all decide)
  have h4 : jsTrim " " = "" := by with_unfolding_all decide
  exact ⟨h1, h2, c6.2.2.1 "1 2 3" h1 h2, h4, c6.2.1 " " h4⟩

/-- Witness for the amended C7 at the points (0,0,0) and (3,4,0). -/
theorem c7_amended_witness :
    (∀ p ∈ [(⟨JS.num 0, JS.num 0, JS.num 0, JS.num 0⟩ : ParsedPoint ℝ),
        ⟨JS.num 1, JS.num 3, JS.num 4, JS.num 0⟩], p.finiteCoords) ∧
    ∃ m : ℝ,
      (parseFileMetrics Real.sqrt "f"
        [(⟨JS.num 0, JS.num 0, JS.num 0, JS.num 0⟩ : ParsedPoint ℝ),
          ⟨JS.num 1, JS.num 3, JS.num 4, JS.num 0⟩] 0 (JS.num 30)).maxDisplacement =
        JS.num m
      ∧ 0 ≤ m
      ∧ (∀ p ∈ [(⟨JS.num 0, JS.num 0, JS.num 0, JS.num 0⟩ : ParsedPoint ℝ),
          ⟨JS.num 1, JS.num 3, JS.num 4, JS.num 0⟩],
          specEuclidDist ⟨JS.num 0, JS.num 0, JS.num 0, JS.num 0⟩ p ≤ m)
      ∧ ∃ p ∈ [(⟨JS.num 0, JS.num 0, JS.num 0, JS.num 0⟩ : ParsedPoint ℝ),
          ⟨JS.num 1, JS.num 3, JS.num 4, JS.num 0⟩],
          specEuclidDist ⟨JS.num 0, JS.num 0, JS.num 0, JS.num 0⟩ p = m := by
  have hfin : ∀ p ∈ [(⟨JS.num 0, JS.num 0, JS.num 0, JS.num 0⟩ : ParsedPoint ℝ),
      ⟨JS.num 1, JS.num 3, JS.num 4, JS.num 0⟩], p.finiteCoords := by
    intro p hp
    rcases List.mem_cons.mp hp with rfl | hp
    · exact ⟨⟨0, rfl⟩, ⟨0, rfl⟩, ⟨0, rfl⟩⟩
    · rcases List.mem_cons.mp hp with rfl | hp
      · exact ⟨⟨3, rfl⟩, ⟨4, rfl⟩, ⟨0, rfl⟩⟩
      · exact absurd hp (by simp)
  exact ⟨hfin, c7_amended.2.2.1 "f" ⟨JS.num 0, JS.num 0, JS.num 0, JS.num 0⟩
    ⟨JS.num 1, JS.num 3, JS.num 4, JS.num 0⟩ [] 0 (JS.num 30) hfin⟩

end Motion
